import Mathlib

/-!
Verification development for the `candidate_models` repository: a shallow
embedding of the pytorch model adapter
(`candidate_models/models/implementations/pytorch.py`) and of the
global-score reporting script (`candidate_models/plot/global_score.py`),
together with theorems settling specification claims about them.

Modelling conventions: Python floats carrying scores are modelled as
`Option ℚ`, with `none` playing the role of `NaN`; fallible Python code
(assertions, KeyError, ValueError, TypeError) is modelled with
`Except String`; a PIL image is a record of mode, size and pixel data;
a pytorch module is a finite tree of named submodules, each module
carrying its per-sample computation as a function.
-/

namespace CandidateModels

/-! ## PIL image model (pytorch.py, `PytorchModel._load_image`) -/

/-- A PIL image: its mode string (such as "L" or "RGB"), its size, and its
pixels flattened row-major into a list, each pixel a list of channel
values (one channel in mode "L", three in mode "RGB"). -/
structure PILImage where
  mode : String
  width : Nat
  height : Nat
  pixels : List (List Nat)
deriving DecidableEq

/-- Python `str.upper` for the ASCII mode strings used by PIL, at the
character level. -/
def pyUpper (s : String) : String := String.mk (s.data.map Char.toUpper)

/-- PIL `Image.copy`: the defensive copy has the same content as the
original (pytorch.py line 38). -/
def imageCopy (image : PILImage) : PILImage := image

/-- PIL `Image.new mode size` (pytorch.py line 40): a fresh image whose
pixels are all zero, i.e. black. -/
def imageNew (mode : String) (w h : Nat) : PILImage :=
  PILImage.mk mode w h (List.replicate (w * h) (if mode = "RGB" then [0, 0, 0] else [0]))

/-- Converting a single pixel between PIL modes: a grayscale value is
replicated over the three RGB channels; identical modes leave the pixel
unchanged. -/
def convertPixel (srcMode dstMode : String) (p : List Nat) : List Nat :=
  if srcMode = dstMode then p
  else if srcMode = "L" ∧ dstMode = "RGB" then
    match p with
    | [v] => [v, v, v]
    | q => q
  else p

/-- PIL `dst.paste(src)` (paste at the origin, pytorch.py line 41): with
matching sizes the destination pixels are replaced by the source pixels
converted to the destination mode. -/
def imagePaste (dst src : PILImage) : PILImage :=
  if src.width = dst.width ∧ src.height = dst.height then
    PILImage.mk dst.mode dst.width dst.height
      (src.pixels.map (convertPixel src.mode dst.mode))
  else dst

/-- `PytorchModel._load_image` (pytorch.py lines 33-42).  A non-grayscale
image is returned as a defensive copy.  In the grayscale branch the local
variable `image` is rebound to a fresh blank RGB image before the paste,
so the paste copies the blank image onto itself; the translation keeps
that rebinding. -/
def load_image (image : PILImage) : PILImage :=
  if pyUpper image.mode ≠ "L" then imageCopy image
  else
    let image2 := imageNew "RGB" image.width image.height
    let image3 := imagePaste image2 image2
    image3

/-! ## PyTorch module tree (pytorch.py, `PytorchModel`) -/

mutual
/-- A pytorch `nn.Module`: its class name, its per-sample computation, and
its named children (the `_modules` ordered mapping). -/
inductive PyModule : Type where
  | mk : String → (Int → Int) → PyModules → PyModule
/-- The ordered named-children mapping `module._modules`. -/
inductive PyModules : Type where
  | nil : PyModules
  | cons : String → PyModule → PyModules → PyModules
end

/-- `module.__class__.__name__`. -/
def PyModule.className : PyModule → String
  | .mk c _ _ => c

/-- The per-sample computation a module applies to each element of a
batch. -/
def PyModule.fn : PyModule → Int → Int
  | .mk _ f _ => f

/-- `module._modules`. -/
def PyModule.children : PyModule → PyModules
  | .mk _ _ cs => cs

/-- `module._modules.get part` (dict lookup, pytorch.py line 64). -/
def PyModules.get : PyModules → String → Option PyModule
  | .nil, _ => none
  | .cons n m rest, part => if n = part then some m else rest.get part

/-- `SUBMODULE_SEPARATOR` (pytorch.py line 19). -/
def SUBMODULE_SEPARATOR : String := "."

/-- Helper for Python `str.split` with the one-character separator of
`SUBMODULE_SEPARATOR`, at the character level. -/
def pySplitAux (acc : List Char) : List Char → List String
  | [] => [String.mk acc.reverse]
  | c :: rest =>
    if c = '.' then String.mk acc.reverse :: pySplitAux [] rest
    else pySplitAux (c :: acc) rest

/-- Python `layer_name.split(SUBMODULE_SEPARATOR)` (pytorch.py line 63). -/
def pySplitDot (s : String) : List String := pySplitAux [] s.data

/-- The loop of `walk_pytorch_module` (pytorch.py lines 63-66): follow each
path segment through the children mapping, failing with the assertion
message naming the full layer name and the offending segment. -/
def walkGo (layer_name : String) : PyModule → List String → Except String PyModule
  | m, [] => .ok m
  | m, part :: parts =>
    match m.children.get part with
    | none => .error ("No submodule found for layer " ++ layer_name ++ ", at part " ++ part)
    | some m2 => walkGo layer_name m2 parts

/-- `walk_pytorch_module` (pytorch.py lines 62-66). -/
def walk_pytorch_module (module : PyModule) (layer_name : String) : Except String PyModule :=
  walkGo layer_name module (pySplitDot layer_name)

/-- The first dot-path segment of a layer path that fails to resolve, if
any. -/
def firstFailingPart : PyModule → List String → Option String
  | _, [] => none
  | m, part :: parts =>
    match m.children.get part with
    | none => some part
    | some m2 => firstFailingPart m2 parts

/-- The message of the Python TypeError raised by string concatenation on a
None left operand. -/
def noneAddStrError : String := "TypeError: unsupported operand types for + of NoneType and str"

/-- `submodule_prefix` computation (pytorch.py lines 93-94): extend the
name prefix by a separator and the child name, or start from the child
name when there is no prefix yet. -/
def joinPre : Option String → String → String
  | none, n => n
  | some p, n => p ++ SUBMODULE_SEPARATOR ++ n

mutual
/-- `PytorchModel._layers` (pytorch.py lines 86-95): depth-first traversal
of the submodule tree.  A childless module is yielded under the name
`name_prefix + SUBMODULE_SEPARATOR + class name`; with no prefix that
concatenation raises a TypeError.  A module with children is not yielded
itself; the traversal recurses into its children. -/
def layersGo : PyModule → Option String → Except String (List (String × PyModule))
  | .mk cn f .nil, none => .error noneAddStrError
  | .mk cn f .nil, some pre => .ok [(pre ++ SUBMODULE_SEPARATOR ++ cn, .mk cn f .nil)]
  | .mk cn f (.cons n m rest), pre => layersChildren (.cons n m rest) pre
/-- The for-loop over `module._modules.items()` inside `_layers`,
concatenating the yields of the recursive calls. -/
def layersChildren : PyModules → Option String → Except String (List (String × PyModule))
  | .nil, _ => .ok []
  | .cons n m rest, pre =>
    match layersGo m (some (joinPre pre n)), layersChildren rest pre with
    | .ok xs, .ok ys => .ok (xs ++ ys)
    | .error e, _ => .error e
    | .ok _, .error e => .error e
end

/-- `PytorchModel.layers` (pytorch.py lines 83-84): the traversal starts at
the root model with no name prefix. -/
def layers (model : PyModule) : Except String (List (String × PyModule)) :=
  layersGo model none

mutual
/-- Modelled from the spec wording, for comparison with `layers`: collect
exactly the childless modules of the tree, in depth-first order, each
named by its dot-joined path from the root suffixed by a dot and its
class name.  `path` is the dot-joined path of the module itself. -/
def dfsLeafList : PyModule → String → List (String × PyModule)
  | .mk cn f .nil, path => [(path ++ "." ++ cn, .mk cn f .nil)]
  | .mk _ _ (.cons n m rest), path => dfsLeafChildren (.cons n m rest) path
/-- Child traversal for `dfsLeafList`: each child's path extends the parent
path by a dot and the child's name. -/
def dfsLeafChildren : PyModules → String → List (String × PyModule)
  | .nil, _ => []
  | .cons n m rest, path => dfsLeafList m (path ++ "." ++ n) ++ dfsLeafChildren rest path
end

/-- The leaves of the root's children: a root child named `n` has path `n`
(the root itself contributes nothing to the path). -/
def dfsLeavesRoot : PyModules → List (String × PyModule)
  | .nil => []
  | .cons n m rest => dfsLeafList m n ++ dfsLeavesRoot rest

/-- The spec-side description of `layers` for a model with at least one
submodule. -/
def dfsLeaves (m : PyModule) : List (String × PyModule) := dfsLeavesRoot m.children

/-- OrderedDict assignment `d[k] = v` (pytorch.py line 69): replace the
value in place when the key exists, append otherwise. -/
def odInsert (d : List (String × List Int)) (k : String) (v : List Int) :
    List (String × List Int) :=
  if d.any (fun kv => decide (kv.1 = k)) then
    d.map (fun kv => if kv.1 = k then (k, v) else kv)
  else d ++ [(k, v)]

/-- A module applied to a stacked batch: its per-sample computation mapped
over the batch elements (the inference library applies the module to each
sample of the batch). -/
def runModule (m : PyModule) (images : List Int) : List Int := images.map m.fn

/-- The hook-registration loop of `_get_activations` (pytorch.py lines
71-74): resolve every requested layer name, aborting with the first
assertion failure. -/
def resolveLayers (model : PyModule) : List String → Except String (List (String × PyModule))
  | [] => .ok []
  | n :: ns =>
    match walk_pytorch_module model n with
    | .error e => .error e
    | .ok m =>
      match resolveLayers model ns with
      | .error e => .error e
      | .ok rest => .ok ((n, m) :: rest)

/-- `PytorchModel._get_activations` (pytorch.py lines 55-78): resolve the
requested layers, run the forward pass in evaluation mode, and collect each
hooked module's output into `layer_results` under its layer name. -/
def get_activations (model : PyModule) (images : List Int) (layer_names : List String) :
    Except String (List (String × List Int)) :=
  match resolveLayers model layer_names with
  | .error e => .error e
  | .ok resolved =>
    .ok (resolved.foldl (fun d nm => odInsert d nm.1 (runModule nm.2 images)) [])

/-- Whether an `Except` carries a value. -/
def exceptOk {ε α : Type} : Except ε α → Bool
  | .ok _ => true
  | .error _ => false

/-- A small concrete network used to instantiate the adapter theorems. -/
def egModel : PyModule :=
  .mk "Net" (fun x => x)
    (.cons "features"
      (.mk "Sequential" (fun x => x + 1)
        (.cons "0" (.mk "Conv2d" (fun x => 2 * x) .nil)
          (.cons "1" (.mk "ReLU" (fun x => max x 0) .nil) .nil)))
      (.cons "classifier" (.mk "Linear" (fun x => x - 3) .nil) .nil))

/-- A module with no submodules, used as a root. -/
def egLeafModel : PyModule := .mk "ReLU" (fun x => max x 0) .nil

/-! ## Reporting script model (global_score.py) -/

/-- Dictionary lookup with a NaN default (global_score.py lines 114-115):
`model_behavior[model] if model in model_behavior else np.nan`. -/
def lookupBehavior (behavior : List (String × ℚ)) (model : String) : Option ℚ :=
  match behavior.find? (fun kv => decide (kv.1 = model)) with
  | some kv => some kv.2
  | none => none

/-- The list comprehension of global_score.py lines 114-115: behavioral
scores for every model of the model column, skipping the model named
"cornet". -/
def i2nColumn (models : List String) (behavior : List (String × ℚ)) : List (Option ℚ) :=
  (models.filter (fun m => decide (m ≠ "cornet"))).map (lookupBehavior behavior)

/-- Pandas column assignment `data[col] = values`: succeeds exactly when
the value list has one entry per row of the table. -/
def assignColumn (nrows : Nat) (col : List (Option ℚ)) : Except String (List (Option ℚ)) :=
  if col.length = nrows then .ok col
  else .error "ValueError: Length of values does not match length of index"

/-- The per-model performance column (global_score.py line 116):
`100 * model_performance[model]`, a KeyError when a model is missing. -/
def perfColumn (models : List String) (performance : List (String × ℚ)) :
    Except String (List ℚ) :=
  models.mapM (fun m =>
    match performance.find? (fun kv => decide (kv.1 = m)) with
    | some kv => Except.ok (100 * kv.2)
    | none => Except.error ("KeyError: " ++ m))

/-- `data[field][data[model_col] == model].values[0]` (global_score.py line
119): the field value of the first row whose model column equals the given
model. -/
def firstMatch (models : List String) (col : List (Option ℚ)) (model : String) : Option ℚ :=
  match (models.zip col).find? (fun p => decide (p.1 = model)) with
  | some p => p.2
  | none => none

/-- NaN-propagating sum of a list of scores. -/
def naSum : List (Option ℚ) → Option ℚ
  | [] => some 0
  | none :: _ => none
  | some x :: rest =>
    match naSum rest with
    | some s => some (x + s)
    | none => none

/-- `np.mean` over one row of the global-score matrix (axis 1,
global_score.py line 121): the NaN-propagating sum divided by the row
length. -/
def npMeanRow (row : List (Option ℚ)) : Option ℚ :=
  match naSum row with
  | some s => if row.length = 0 then none else some (s / (row.length : ℚ))
  | none => none

/-- The `global_scores` rows and the derived global column (global_score.py
lines 118-121): each row holds only the behavioral value of the model (the
neural component is commented out), and the global score is the row
mean. -/
def globalColumn (models : List String) (i2n : List (Option ℚ)) : List (Option ℚ) :=
  (models.map (fun m => [firstMatch models i2n m])).map npMeanRow

/-- Row filter `data = data[data[col].isin(models)]` (global_score.py line
122) applied to one column: keep the entries whose model is in the given
list. -/
def isinFilter {α : Type} (keep : List String) (ms : List String) (col : List α) : List α :=
  ((ms.zip col).filter (fun p => decide (p.1 ∈ keep))).map (fun p => p.2)

/-- The descending average-method rank of one value within a column: the
number of strictly greater values plus the average position within its tie
group; NaN entries never count. -/
def rankValue (xs : List (Option ℚ)) (x : ℚ) : ℚ :=
  (xs.countP (fun w =>
      match w with
      | some y => decide (x < y)
      | none => false) : ℚ) +
  ((xs.countP (fun w =>
      match w with
      | some y => decide (x = y)
      | none => false) : ℚ) + 1) / 2

/-- Pandas `Series.rank(ascending=False)` with the default average method
(global_score.py line 124): every non-NaN entry is ranked by `rankValue`;
NaN entries keep NaN. -/
def rankDesc (xs : List (Option ℚ)) : List (Option ℚ) :=
  xs.map (fun v =>
    match v with
    | none => none
    | some x => some (rankValue xs x))

/-- The score table assembled by `prepare_data`: the model column, the
behavioral column, the performance column, the derived global score and
its rank. -/
structure ScoreTable where
  model : List String
  i2n : List (Option ℚ)
  performance : List ℚ
  globalScore : List (Option ℚ)
  rank : List (Option ℚ)
deriving DecidableEq

/-- `prepare_data` (global_score.py lines 111-134), up to the metadata
merge: the model column of the scores table is the given model list;
the i2n and performance columns are assigned, the global score and its
descending rank are derived, and rows are filtered to models of the input
list.  The fixture and latex outputs are file side effects and are not part
of the returned table. -/
def prepare_data (models : List String) (behavior performance : List (String × ℚ)) :
    Except String ScoreTable :=
  match assignColumn models.length (i2nColumn models behavior) with
  | .error e => .error e
  | .ok i2n =>
    match perfColumn models performance with
    | .error e => .error e
    | .ok perf =>
      .ok (ScoreTable.mk
        (models.filter (fun m => decide (m ∈ models)))
        (isinFilter models models i2n)
        (isinFilter models models perf)
        (isinFilter models models (globalColumn models i2n))
        (rankDesc (isinFilter models models (globalColumn models i2n))))

/-- A parsed BibTeX entry as produced by the bibliography parser. -/
structure BibEntry where
  key : String
  fields : List (String × String)
deriving DecidableEq

/-- `parse_bib` inside `_create_fixture` (global_score.py lines 143-148):
the parsed entry collection must contain exactly one entry, which is
returned; any other number of entries trips the assertion. -/
def parse_bib (entries : List BibEntry) : Except String BibEntry :=
  if h : entries.length = 1 then
    .ok (entries.head (by
      intro hnil
      rw [hnil] at h
      exact absurd h (by simp)))
  else .error "AssertionError: expected exactly one parsed bibliography entry"

/-- A concrete bibliography entry used to instantiate the parse_bib
theorem. -/
def egBib : BibEntry := BibEntry.mk "krizhevsky2012" [("year", "2012")]

/-- The convex trend-fit branch of `_plot_score` (global_score.py lines
524-532), scanning the points already sorted by x: state is the pair
`(curr_x, curr_y)`; a point with a new x value overwrites both, a point
with the current x value and a strictly larger y overwrites the y, and the
current y is appended for every point. -/
def convexFitAux : List (ℚ × ℚ) → ℚ → ℚ → List ℚ
  | [], _, _ => []
  | (px, py) :: rest, cx, cy =>
    if px ≠ cx then py :: convexFitAux rest px py
    else if py > cy then py :: convexFitAux rest cx py
    else cy :: convexFitAux rest cx cy

/-- The convex fit over sorted points, with the initial state
`curr_x, curr_y = 0, -99999` of global_score.py line 525. -/
def convexFit (xy : List (ℚ × ℚ)) : List ℚ := convexFitAux xy 0 (-99999)

/-- Whether every point introduces a new x value, starting from the given
current x: adjacent x values all differ and the first differs from the
initial state. -/
def allNewX : ℚ → List (ℚ × ℚ) → Bool
  | _, [] => true
  | cx, (px, _) :: rest => decide (px ≠ cx) && allNewX px rest

/-! ## Helper lemmas -/

/-- The row mean of a one-element row is that element, NaN included. -/
theorem npMeanRow_singleton (v : Option ℚ) : npMeanRow [v] = v := by
  cases v with
  | none => simp [npMeanRow, naSum]
  | some x => simp [npMeanRow, naSum]

/-- On a run of points that each carry a new x value, the convex fit copies
the y values unchanged, whatever the incoming state. -/
theorem convexFitAux_allNewX :
    ∀ (xy : List (ℚ × ℚ)) (cx cy : ℚ), allNewX cx xy = true →
      convexFitAux xy cx cy = xy.map Prod.snd := by
  intro xy
  induction xy with
  | nil => intro cx cy _; rfl
  | cons p rest ih =>
    intro cx cy h
    obtain ⟨px, py⟩ := p
    rw [allNewX, Bool.and_eq_true, decide_eq_true_eq] at h
    rw [convexFitAux, if_pos h.1, ih px py h.2, List.map_cons]

/-- An unresolvable path segment makes the walk loop fail with the
assertion message naming the layer and the first failing segment. -/
theorem walkGo_error (layer_name : String) :
    ∀ (parts : List String) (m : PyModule) (p : String),
      firstFailingPart m parts = some p →
      walkGo layer_name m parts =
        .error ("No submodule found for layer " ++ layer_name ++ ", at part " ++ p) := by
  intro parts
  induction parts with
  | nil => intro m p h; simp [firstFailingPart] at h
  | cons part rest ih =>
    intro m p h
    cases hg : m.children.get part with
    | none =>
      rw [firstFailingPart, hg] at h
      cases h
      rw [walkGo, hg]
    | some m2 =>
      rw [firstFailingPart, hg] at h
      rw [walkGo, hg]
      exact ih m2 p h

mutual
/-- With a name prefix present, the traversal of _layers succeeds and
produces exactly the spec-side depth-first leaf list. -/
theorem layersGo_some_eq : ∀ (m : PyModule) (p : String),
    layersGo m (some p) = .ok (dfsLeafList m p)
  | .mk cn f .nil, p => by
    rw [layersGo, dfsLeafList, SUBMODULE_SEPARATOR]
  | .mk cn f (.cons n c rest), p => by
    rw [layersGo, dfsLeafList, layersChildren_some_eq (.cons n c rest) p]
/-- Child loop of _layers under a present prefix. -/
theorem layersChildren_some_eq : ∀ (cs : PyModules) (p : String),
    layersChildren cs (some p) = .ok (dfsLeafChildren cs p)
  | .nil, p => rfl
  | .cons n c rest, p => by
    rw [layersChildren, layersGo_some_eq c (joinPre (some p) n),
      layersChildren_some_eq rest p, dfsLeafChildren, joinPre, SUBMODULE_SEPARATOR]
end

/-- Child loop of _layers at the root (no prefix yet): each root child is
traversed with its own name as prefix. -/
theorem layersChildren_none_eq : ∀ (cs : PyModules),
    layersChildren cs none = .ok (dfsLeavesRoot cs)
  | .nil => rfl
  | .cons n c rest => by
    rw [layersChildren, layersGo_some_eq c (joinPre none n),
      layersChildren_none_eq rest, dfsLeavesRoot, joinPre]

mutual
/-- Every pair collected by the spec-side depth-first traversal carries a
childless module. -/
theorem dfsLeafList_leaves : ∀ (m : PyModule) (p : String) (nm : String × PyModule),
    nm ∈ dfsLeafList m p → nm.2.children = .nil
  | .mk cn f .nil, p, nm, h => by
    rw [dfsLeafList] at h
    rcases List.mem_singleton.mp h with rfl
    rfl
  | .mk cn f (.cons n c rest), p, nm, h =>
    dfsLeafChildren_leaves (.cons n c rest) p nm (by rwa [dfsLeafList] at h)
/-- Child-loop version of the childless-module property. -/
theorem dfsLeafChildren_leaves : ∀ (cs : PyModules) (p : String) (nm : String × PyModule),
    nm ∈ dfsLeafChildren cs p → nm.2.children = .nil
  | .nil, p, nm, h => by rw [dfsLeafChildren] at h; exact absurd h (List.not_mem_nil nm)
  | .cons n c rest, p, nm, h => by
    rw [dfsLeafChildren] at h
    rcases List.mem_append.mp h with h1 | h2
    · exact dfsLeafList_leaves c (p ++ "." ++ n) nm h1
    · exact dfsLeafChildren_leaves rest p nm h2
end

/-- Root version of the childless-module property. -/
theorem dfsLeavesRoot_leaves : ∀ (cs : PyModules) (nm : String × PyModule),
    nm ∈ dfsLeavesRoot cs → nm.2.children = .nil
  | .nil, nm, h => by rw [dfsLeavesRoot] at h; exact absurd h (List.not_mem_nil nm)
  | .cons n c rest, nm, h => by
    rw [dfsLeavesRoot] at h
    rcases List.mem_append.mp h with h1 | h2
    · exact dfsLeafList_leaves c n nm h1
    · exact dfsLeavesRoot_leaves rest nm h2

/-- When every requested layer name resolves, the registration loop
succeeds and keeps the requested names in order. -/
theorem resolveLayers_ok (model : PyModule) :
    ∀ (ns : List String), (∀ n ∈ ns, exceptOk (walk_pytorch_module model n) = true) →
      ∃ rs, resolveLayers model ns = .ok rs ∧ rs.map Prod.fst = ns := by
  intro ns
  induction ns with
  | nil => intro _; exact ⟨[], rfl, rfl⟩
  | cons n rest ih =>
    intro h
    have hn := h n (List.mem_cons_self n rest)
    cases hw : walk_pytorch_module model n with
    | error e => rw [hw] at hn; exact absurd hn (by rw [exceptOk]; simp)
    | ok m =>
      obtain ⟨rs, hrs, hmap⟩ := ih (fun x hx => h x (List.mem_cons_of_mem n hx))
      refine ⟨(n, m) :: rs, ?_, ?_⟩
      · rw [resolveLayers, hw, hrs]
      · rw [List.map_cons, hmap]

/-- The keys after an OrderedDict assignment are the old keys plus the
assigned key. -/
theorem odInsert_keys (d : List (String × List Int)) (k : String) (v : List Int) :
    ∀ k2, k2 ∈ (odInsert d k v).map Prod.fst ↔ k2 ∈ d.map Prod.fst ∨ k2 = k := by
  intro k2
  rw [odInsert]
  by_cases hany : d.any (fun kv => decide (kv.1 = k)) = true
  · rw [if_pos hany]
    have hmap : (d.map (fun kv => if kv.1 = k then (k, v) else kv)).map Prod.fst =
        d.map Prod.fst := by
      rw [List.map_map]
      apply List.map_congr_left
      intro kv _
      by_cases hkv : kv.1 = k
      · simp [hkv]
      · simp [hkv]
    rw [hmap]
    have hk : k ∈ d.map Prod.fst := by
      rw [List.any_eq_true] at hany
      obtain ⟨kv, hkv, he⟩ := hany
      rw [decide_eq_true_eq] at he
      exact he ▸ List.mem_map_of_mem Prod.fst hkv
    constructor
    · exact Or.inl
    · rintro (hh | rfl)
      · exact hh
      · exact hk
  · rw [if_neg hany, List.map_append]
    simp

/-- Every entry after an OrderedDict assignment is an old entry or the
assigned pair. -/
theorem odInsert_values (d : List (String × List Int)) (k : String) (v : List Int) :
    ∀ kv ∈ odInsert d k v, kv ∈ d ∨ kv = (k, v) := by
  intro kv hkv
  rw [odInsert] at hkv
  by_cases hany : d.any (fun kv => decide (kv.1 = k)) = true
  · rw [if_pos hany] at hkv
    obtain ⟨kv0, hkv0, heq⟩ := List.mem_map.mp hkv
    by_cases h0 : kv0.1 = k
    · right; rw [← heq, if_pos h0]
    · left; rw [← heq, if_neg h0]; exact hkv0
  · rw [if_neg hany] at hkv
    rcases List.mem_append.mp hkv with hh | hh
    · exact Or.inl hh
    · right; exact List.mem_singleton.mp hh

/-- Folding the hook outputs over resolved layers: the key set is the old
key set plus the resolved layer names. -/
theorem foldl_od_keys (images : List Int) :
    ∀ (rs : List (String × PyModule)) (d : List (String × List Int)) (k : String),
      (k ∈ (rs.foldl (fun d nm => odInsert d nm.1 (runModule nm.2 images)) d).map Prod.fst ↔
        k ∈ d.map Prod.fst ∨ k ∈ rs.map Prod.fst) := by
  intro rs
  induction rs with
  | nil => intro d k; simp
  | cons nm rest ih =>
    intro d k
    rw [List.foldl_cons, ih (odInsert d nm.1 (runModule nm.2 images)) k,
      odInsert_keys d nm.1 (runModule nm.2 images) k, List.map_cons]
    simp only [List.mem_cons]
    tauto

/-- Folding the hook outputs preserves the invariant that every stored
activation has the batch size as leading dimension. -/
theorem foldl_od_values (images : List Int) :
    ∀ (rs : List (String × PyModule)) (d : List (String × List Int)),
      (∀ kv ∈ d, kv.2.length = images.length) →
      ∀ kv ∈ rs.foldl (fun d nm => odInsert d nm.1 (runModule nm.2 images)) d,
        kv.2.length = images.length := by
  intro rs
  induction rs with
  | nil => intro d hd kv hkv; exact hd kv hkv
  | cons nm rest ih =>
    intro d hd kv hkv
    rw [List.foldl_cons] at hkv
    refine ih _ ?_ kv hkv
    intro kv2 hkv2
    rcases odInsert_values d nm.1 (runModule nm.2 images) kv2 hkv2 with hh | hh
    · exact hd kv2 hh
    · rw [hh]; exact List.length_map images nm.2.fn

/-- Looking up the first row whose model column matches, in a column that
was itself computed per model, recovers the per-model value. -/
theorem firstMatch_map (f : String → Option ℚ) :
    ∀ (ms : List String) (m : String), m ∈ ms → firstMatch ms (ms.map f) m = f m := by
  intro ms
  induction ms with
  | nil => intro m h; exact absurd h (List.not_mem_nil m)
  | cons a rest ih =>
    intro m h
    by_cases ha : a = m
    · subst ha
      rw [firstMatch, List.map_cons, List.zip_cons_cons,
        List.find?_cons_of_pos _ (by rw [decide_eq_true_eq])]
    · have hm : m ∈ rest := by
        rcases List.mem_cons.mp h with h1 | h2
        · exact absurd h1.symm ha
        · exact h2
      rw [firstMatch, List.map_cons, List.zip_cons_cons,
        List.find?_cons_of_neg _ (by simp [ha])]
      exact ih m hm

/-- The derived global column over a per-model behavioral column is that
behavioral column itself: each row of the score matrix is the singleton
behavioral value and the row mean of a singleton is the value. -/
theorem globalColumn_map (ms : List String) (f : String → Option ℚ) :
    globalColumn ms (ms.map f) = ms.map f := by
  rw [globalColumn, List.map_map]
  apply List.map_congr_left
  intro m hm
  show npMeanRow [firstMatch ms (ms.map f) m] = f m
  rw [npMeanRow_singleton, firstMatch_map f ms m hm]

/-- Dropping the model "cornet" from a list that contains it yields a
strictly shorter list. -/
theorem filter_cornet_lt :
    ∀ (l : List String), "cornet" ∈ l →
      (l.filter (fun m => decide (m ≠ "cornet"))).length < l.length := by
  intro l
  induction l with
  | nil => intro h; exact absurd h (List.not_mem_nil _)
  | cons a rest ih =>
    intro h
    by_cases ha : a = "cornet"
    · subst ha
      rw [List.filter_cons_of_neg (by simp)]
      exact Nat.lt_succ_of_le (List.length_filter_le _ rest)
    · have hm : "cornet" ∈ rest := by
        rcases List.mem_cons.mp h with h1 | h2
        · exact absurd h1.symm ha
        · exact h2
      rw [List.filter_cons_of_pos (by simp [ha]), List.length_cons, List.length_cons]
      exact Nat.succ_lt_succ (ih hm)

/-! ## Claim theorems -/

/-- C3: whenever prepare_data succeeds, the derived global column of the
returned table equals its behavioral (i2n) column entry for entry: the
global score is the mean of the singleton holding only the behavioral
metric, with every neural component commented out. -/
theorem prepare_data_global_eq_i2n (models : List String)
    (behavior performance : List (String × ℚ)) (t : ScoreTable)
    (h : prepare_data models behavior performance = .ok t) :
    t.globalScore = t.i2n := by
  rw [prepare_data] at h
  cases ha : assignColumn models.length (i2nColumn models behavior) with
  | error e => rw [ha] at h; exact Except.noConfusion h
  | ok i2n =>
    rw [ha] at h
    cases hp : perfColumn models performance with
    | error e => rw [hp] at h; exact Except.noConfusion h
    | ok perf =>
      rw [hp] at h
      rw [assignColumn] at ha
      by_cases hlen : (i2nColumn models behavior).length = models.length
      · rw [if_pos hlen] at ha
        have hi : i2nColumn models behavior = i2n := Except.ok.inj ha
        have hlen2 : (models.filter (fun m => decide (m ≠ "cornet"))).length = models.length := by
          rw [i2nColumn, List.length_map] at hlen
          exact hlen
        have hfil : models.filter (fun m => decide (m ≠ "cornet")) = models :=
          List.filter_eq_self.mpr (List.filter_length_eq_length.mp hlen2)
        have hi2 : i2n = models.map (lookupBehavior behavior) := by
          rw [← hi, i2nColumn, hfil]
        have hg : globalColumn models i2n = i2n := by
          rw [hi2, globalColumn_map]
        have ht := Except.ok.inj h
        rw [← ht]
        show isinFilter models models (globalColumn models i2n) = isinFilter models models i2n
        rw [hg]
      · rw [if_neg hlen] at ha; exact Except.noConfusion ha

/-- C3 witness: a concrete two-model run of prepare_data whose returned
table has identical global and i2n columns. -/
theorem prepare_data_global_eq_i2n_witness :
    prepare_data ["alexnet", "resnet"] [("alexnet", 1/2)]
        [("alexnet", 3/5), ("resnet", 7/10)] =
      .ok (ScoreTable.mk ["alexnet", "resnet"] [some (1/2), none] [60, 70]
        [some (1/2), none] [some 1, none]) ∧
    (ScoreTable.mk ["alexnet", "resnet"] [some (1/2), none] [60, 70]
        [some (1/2), none] [some 1, none] : ScoreTable).globalScore =
      (ScoreTable.mk ["alexnet", "resnet"] [some (1/2), none] [60, 70]
        [some (1/2), none] [some 1, none] : ScoreTable).i2n := by
  have hok : prepare_data ["alexnet", "resnet"] [("alexnet", 1/2)]
      [("alexnet", 3/5), ("resnet", 7/10)] =
      .ok (ScoreTable.mk ["alexnet", "resnet"] [some (1/2), none] [60, 70]
        [some (1/2), none] [some 1, none]) := by
    simp +decide [prepare_data, assignColumn, i2nColumn, lookupBehavior, perfColumn,
      globalColumn, firstMatch, npMeanRow, naSum, isinFilter, rankDesc, rankValue,
      List.countP, List.countP.go, List.mapM, List.mapM.loop, List.find?, List.filter,
      List.zip, List.zipWith, Except.bind, bind, Except.pure, pure]
    norm_num [List.filter, List.zipWith]
  exact ⟨hok, prepare_data_global_eq_i2n ["alexnet", "resnet"] [("alexnet", 1/2)]
    [("alexnet", 3/5), ("resnet", 7/10)] _ hok⟩

/-- C7: rank computation.  A column entry that is the unique maximum of the
global column receives rank 1 under the descending rank of global_score.py
line 124, and on the global-score sequence [0.9, 0.5, 0.7] the ranks come
out [1, 3, 2]. -/
theorem rank_descending (xs : List (Option ℚ)) (i : Nat) (x : ℚ)
    (hx : xs[i]? = some (some x))
    (hmax : ∀ w ∈ xs, ∀ y : ℚ, w = some y → y ≤ x)
    (huniq : xs.countP (fun w =>
      match w with
      | some y => decide (x = y)
      | none => false) = 1) :
    (rankDesc xs)[i]? = some (some 1) ∧
    rankDesc [some (9/10), some (5/10), some (7/10)] = [some 1, some 3, some 2] := by
  constructor
  · rw [rankDesc, List.getElem?_map, hx, Option.map_some']
    have hgt : xs.countP (fun w =>
        match w with
        | some y => decide (x < y)
        | none => false) = 0 := by
      rw [List.countP_eq_zero]
      intro a ha
      cases a with
      | none => simp
      | some y =>
        show ¬ (decide (x < y) = true)
        rw [decide_eq_true_eq]
        exact not_lt.mpr (hmax (some y) ha y rfl)
    have h1 : rankValue xs x = 1 := by
      rw [rankValue, hgt, huniq]
      norm_num
    show some (some (rankValue xs x)) = some (some 1)
    rw [h1]
  · norm_num [rankDesc, rankValue, List.countP, List.countP.go]

/-- C7 witness: in the column [0.9, 0.5, 0.7] the first entry is the unique
maximum and receives rank 1. -/
theorem rank_descending_witness :
    ([some ((9:ℚ)/10), some (5/10), some (7/10)][0]? = some (some ((9:ℚ)/10))) ∧
    (rankDesc [some (9/10), some (5/10), some (7/10)])[0]? = some (some 1) := by
  refine ⟨rfl, ?_⟩
  refine (rank_descending [some (9/10), some (5/10), some (7/10)] 0 (9/10) rfl ?_ ?_).1
  · intro w hw y hy
    simp only [List.mem_cons, List.not_mem_nil, or_false] at hw
    rcases hw with rfl | rfl | rfl <;> (injection hy with hy2; subst hy2; norm_num)
  · norm_num [List.countP, List.countP.go]

/-- C9: the i2n column construction of prepare_data.  With "cornet" among
the models the comprehension is one entry short and the pandas column
assignment fails (so prepare_data never returns a table); without "cornet"
the assigned column has exactly one entry per row, the behavioral score of
the row's model or NaN when it has none. -/
theorem i2n_column_cornet (models : List String) (behavior : List (String × ℚ)) :
    ("cornet" ∈ models →
      assignColumn models.length (i2nColumn models behavior) =
        .error "ValueError: Length of values does not match length of index" ∧
      ∀ performance t, prepare_data models behavior performance ≠ .ok t) ∧
    ("cornet" ∉ models →
      assignColumn models.length (i2nColumn models behavior) =
        .ok (models.map (lookupBehavior behavior)) ∧
      (i2nColumn models behavior).length = models.length) := by
  constructor
  · intro h
    have hlt := filter_cornet_lt models h
    have hne : (i2nColumn models behavior).length ≠ models.length := by
      rw [i2nColumn, List.length_map]
      exact Nat.ne_of_lt hlt
    have herr : assignColumn models.length (i2nColumn models behavior) =
        .error "ValueError: Length of values does not match length of index" := by
      rw [assignColumn, if_neg hne]
    refine ⟨herr, ?_⟩
    intro performance t hc
    rw [prepare_data, herr] at hc
    exact Except.noConfusion hc
  · intro h
    have hfil : models.filter (fun m => decide (m ≠ "cornet")) = models :=
      List.filter_eq_self.mpr (by
        intro a ha
        rw [decide_eq_true_eq]
        intro he
        exact h (he ▸ ha))
    have hcol : i2nColumn models behavior = models.map (lookupBehavior behavior) := by
      rw [i2nColumn, hfil]
    have hlen : (i2nColumn models behavior).length = models.length := by
      rw [hcol, List.length_map]
    exact ⟨by rw [assignColumn, if_pos hlen, hcol], hlen⟩

/-- C9 witness: a model list containing "cornet" fails the assignment
while a cornet-free list gets one i2n entry per row. -/
theorem i2n_column_cornet_witness :
    (assignColumn (["resnet", "cornet"] : List String).length
        (i2nColumn ["resnet", "cornet"] []) =
      .error "ValueError: Length of values does not match length of index") ∧
    (assignColumn (["resnet"] : List String).length (i2nColumn ["resnet"] []) =
      .ok (["resnet"].map (lookupBehavior []))) :=
  ⟨((i2n_column_cornet ["resnet", "cornet"] []).1 (by simp)).1,
   ((i2n_column_cornet ["resnet"] []).2 (by simp)).1⟩

/-- C1 counterexample: on ascending pairwise-distinct x values with
y-sequence [0.2, 0.5, 0.3, 0.6], the convex policy of _plot_score yields
the fitted y-sequence [0.2, 0.5, 0.3, 0.6], not the claimed running
maximum [0.2, 0.5, 0.5, 0.6]. -/
theorem convexFit_claim_counterexample :
    convexFit [(1, 2/10), (2, 5/10), (3, 3/10), (4, 6/10)] = [2/10, 5/10, 3/10, 6/10] ∧
    convexFit [(1, 2/10), (2, 5/10), (3, 3/10), (4, 6/10)] ≠ [2/10, 5/10, 5/10, 6/10] := by
  constructor
  · norm_num [convexFit, convexFitAux]
  · norm_num [convexFit, convexFitAux]

/-- C1 (amended): the convex trend-fit policy resets the fitted y value to
the current point's y at every new x value, so on points whose x values are
pairwise adjacent-distinct (and differ from the initial state 0) the fitted
sequence is exactly the y-sequence; the running maximum applies only to
consecutive points sharing the same x. -/
theorem convexFit_resets_at_new_x (xy : List (ℚ × ℚ)) (h : allNewX 0 xy = true) :
    convexFit xy = xy.map Prod.snd :=
  convexFitAux_allNewX xy 0 (-99999) h

/-- C1 witness: the amended statement evaluated on the concrete example of
the claim. -/
theorem convexFit_resets_at_new_x_witness :
    allNewX 0 [(1, 2/10), (2, 5/10), (3, 3/10), (4, 6/10)] = true ∧
    convexFit [(1, 2/10), (2, 5/10), (3, 3/10), (4, 6/10)] =
      ([(1, 2/10), (2, 5/10), (3, 3/10), (4, 6/10)] : List (ℚ × ℚ)).map Prod.snd := by
  have hx : allNewX 0 [(1, 2/10), (2, 5/10), (3, 3/10), (4, 6/10)] = true := by
    simp only [allNewX, Bool.and_eq_true, decide_eq_true_eq]
    norm_num
  exact ⟨hx, convexFit_resets_at_new_x _ hx⟩

/-- C2: _load_image on a grayscale image.  The code rebinds the local
variable to a blank RGB image and pastes that blank image onto itself, so a
1x1 mode-"L" image with pixel value 5 comes back as an all-black RGB image
instead of an RGB image with the original pixel content; a non-grayscale
image does come back as a defensive copy with identical content. -/
theorem load_image_grayscale_blank :
    load_image (PILImage.mk "L" 1 1 [[5]]) = PILImage.mk "RGB" 1 1 [[0, 0, 0]] ∧
    (load_image (PILImage.mk "L" 1 1 [[5]])).pixels ≠ [[5, 5, 5]] ∧
    load_image (PILImage.mk "RGB" 1 1 [[7, 8, 9]]) = PILImage.mk "RGB" 1 1 [[7, 8, 9]] := by
  refine ⟨by decide, by decide, by decide⟩

/-- C5: when some dot-path segment of a layer name does not resolve to a
child submodule, walk_pytorch_module fails with the assertion message
naming the full layer name and the first failing segment, and never
returns a module. -/
theorem walk_error_names_layer_and_part (m : PyModule) (layer_name p : String)
    (h : firstFailingPart m (pySplitDot layer_name) = some p) :
    walk_pytorch_module m layer_name =
      .error ("No submodule found for layer " ++ layer_name ++ ", at part " ++ p) ∧
    ∀ m2, walk_pytorch_module m layer_name ≠ .ok m2 := by
  have he : walk_pytorch_module m layer_name =
      .error ("No submodule found for layer " ++ layer_name ++ ", at part " ++ p) :=
    walkGo_error layer_name (pySplitDot layer_name) m p h
  refine ⟨he, ?_⟩
  intro m2 hc
  rw [he] at hc
  exact Except.noConfusion hc

/-- C5 witness: on the concrete network, the layer name "features.9" fails
at the segment "9" with the formatted assertion message. -/
theorem walk_error_names_layer_and_part_witness :
    firstFailingPart egModel (pySplitDot "features.9") = some "9" ∧
    walk_pytorch_module egModel "features.9" =
      .error ("No submodule found for layer " ++ "features.9" ++ ", at part " ++ "9") :=
  ⟨by decide, (walk_error_names_layer_and_part egModel "features.9" "9" (by decide)).1⟩

/-- C4: for resolvable layer paths and a non-empty batch, _get_activations
returns a mapping whose keys are exactly the requested layer names and
whose values all have the batch size as leading dimension. -/
theorem get_activations_keys_batchdim (model : PyModule) (images : List Int)
    (layer_names : List String) (hne : images ≠ [])
    (hok : ∀ n ∈ layer_names, exceptOk (walk_pytorch_module model n) = true) :
    ∃ d, get_activations model images layer_names = .ok d ∧
      (∀ k, k ∈ d.map Prod.fst ↔ k ∈ layer_names) ∧
      (∀ kv ∈ d, kv.2.length = images.length) := by
  obtain ⟨rs, hrs, hmap⟩ := resolveLayers_ok model layer_names hok
  refine ⟨rs.foldl (fun d nm => odInsert d nm.1 (runModule nm.2 images)) [], ?_, ?_, ?_⟩
  · rw [get_activations, hrs]
  · intro k
    rw [foldl_od_keys images rs [] k, hmap]
    simp
  · exact foldl_od_values images rs [] (by intro kv hkv; exact absurd hkv (List.not_mem_nil kv))

/-- C4 witness: the adapter evaluated on the concrete network, a batch of
two samples and two valid layer paths. -/
theorem get_activations_keys_batchdim_witness :
    ([1, 2] : List Int) ≠ [] ∧
    (∀ n ∈ ["features.0", "classifier"], exceptOk (walk_pytorch_module egModel n) = true) ∧
    ∃ d, get_activations egModel [1, 2] ["features.0", "classifier"] = .ok d ∧
      (∀ k, k ∈ d.map Prod.fst ↔ k ∈ ["features.0", "classifier"]) ∧
      (∀ kv ∈ d, kv.2.length = ([1, 2] : List Int).length) :=
  ⟨by decide, by decide,
   get_activations_keys_batchdim egModel [1, 2] ["features.0", "classifier"]
     (by decide) (by decide)⟩

/-- C6: for a model whose root has at least one submodule, layers() is the
depth-first traversal collecting exactly the childless modules, each named
by its dot-joined path from the root suffixed by a dot and its class name;
no module with children is ever yielded. -/
theorem layers_yields_exactly_leaves (m : PyModule) (h : m.children ≠ .nil) :
    layers m = .ok (dfsLeaves m) ∧ ∀ nm ∈ dfsLeaves m, nm.2.children = .nil := by
  constructor
  · cases m with
    | mk cn f cs =>
      cases cs with
      | nil => exact absurd rfl h
      | cons n c rest =>
        rw [layers, layersGo, layersChildren_none_eq]
        rfl
  · intro nm hm
    exact dfsLeavesRoot_leaves m.children nm hm

/-- C6 witness: the traversal evaluated on the concrete network. -/
theorem layers_yields_exactly_leaves_witness :
    egModel.children ≠ PyModules.nil ∧
    layers egModel = .ok (dfsLeaves egModel) ∧
    ∀ nm ∈ dfsLeaves egModel, nm.2.children = PyModules.nil :=
  ⟨fun hc => PyModules.noConfusion hc,
   layers_yields_exactly_leaves egModel (fun hc => PyModules.noConfusion hc)⟩

/-- C10: calling layers() on a model whose root has no submodules hits the
None-prefix string concatenation and raises, yielding nothing; with at
least one submodule the traversal completes normally. -/
theorem layers_root_without_submodules (m : PyModule) :
    (m.children = PyModules.nil → layers m = .error noneAddStrError) ∧
    (m.children ≠ PyModules.nil → ∃ l, layers m = .ok l) := by
  cases m with
  | mk cn f cs =>
    cases cs with
    | nil =>
      exact ⟨fun _ => rfl, fun h => absurd rfl h⟩
    | cons n c rest =>
      refine ⟨fun h => absurd h (fun hc => PyModules.noConfusion hc), fun _ => ?_⟩
      exact ⟨dfsLeavesRoot (.cons n c rest), by rw [layers, layersGo, layersChildren_none_eq]⟩

/-- C10 witness: a bare leaf as root raises the TypeError, while the
concrete nested network traverses fine. -/
theorem layers_root_without_submodules_witness :
    layers egLeafModel = .error noneAddStrError ∧ ∃ l, layers egModel = .ok l :=
  ⟨(layers_root_without_submodules egLeafModel).1 rfl,
   (layers_root_without_submodules egModel).2 (fun hc => PyModules.noConfusion hc)⟩

/-- C8: parse_bib fails with the assertion exactly when the parsed entry
collection does not contain exactly one entry, and returns the entry when
there is exactly one. -/
theorem parse_bib_exactly_one (entries : List BibEntry) :
    ((∃ e, parse_bib entries = .error e) ↔ entries.length ≠ 1) ∧
    ∀ b, entries = [b] → parse_bib entries = .ok b := by
  constructor
  · constructor
    · rintro ⟨e, he⟩ hlen
      rw [parse_bib, dif_pos hlen] at he
      exact Except.noConfusion he
    · intro hlen
      refine ⟨"AssertionError: expected exactly one parsed bibliography entry", ?_⟩
      rw [parse_bib, dif_neg hlen]
  · rintro b rfl
    rw [parse_bib, dif_pos (by simp)]
    simp

/-- C8 witness: a singleton entry collection is returned as its entry, and
the empty collection trips the assertion. -/
theorem parse_bib_exactly_one_witness :
    parse_bib [egBib] = .ok egBib ∧ ∃ e, parse_bib ([] : List BibEntry) = .error e :=
  ⟨(parse_bib_exactly_one [egBib]).2 egBib rfl,
   (parse_bib_exactly_one ([] : List BibEntry)).1.mpr (by simp)⟩

end CandidateModels
